import Mathlib

/-!
# version-app: a shallow embedding of `apps/version-app/main.go`

The program is a small HTTP service with three handlers (`/`, `/health`,
`/db-check`) and an environment-variable configuration loader.

Modelling conventions.

* The process environment is a partial map from names to values; `os.Getenv`
  returns the empty string for a name that is not set.
* A Go `map[string]T` is an association list of its entries. Ranging over a map
  visits every entry once in an unspecified order, so a map handed to the
  program is a list with pairwise distinct keys in an arbitrary order.
* `http.ResponseWriter` is a recorder: the header map the handler can edit, the
  status line committed by the first `WriteHeader`/`Write`, and the chunks
  written to the body, oldest first.
* `json.NewEncoder(w).Encode(v)` writes one JSON document. It is kept as a JSON
  object (ordered members), not as its bytes; string escaping is not modelled.
* `database/sql` is an oracle giving the outcome of `sql.Open`, `Ping` and
  `QueryRow(..).Scan`, and the handler records the calls it issues in a trace.
  An `error` is represented by its description (what `%v` prints).
* `time.Now().Format(time.RFC3339)` and `os.Hostname()` are read from the
  surrounding system `OS`.
-/

namespace VersionApp

/-! ## Process environment and configuration -/

/-- The process environment: `none` for a name that is not set. -/
abbrev Env := String → Option String

/-- Go `os.Getenv`: the value of the variable, empty when it is not present. -/
def osGetenv (env : Env) (key : String) : String :=
  match env key with
  | some value => value
  | none => ""

/-- Source `getEnv(key, fallback)`, `main.go` lines 120-125. -/
def getEnv (env : Env) (key fallback : String) : String :=
  let value := osGetenv env key
  if value ≠ "" then value else fallback

/-- The package-level variables of `main.go` lines 15-22. -/
structure Globals where
  version : String
  dbHost : String
  dbPort : String
  dbUser : String
  dbPass : String
  dbName : String
  deriving DecidableEq, Repr

/-- Initialisation of the package-level `var (...)` block. -/
def initGlobals (env : Env) : Globals where
  version := getEnv env "VERSION" "v1"
  dbHost := getEnv env "DB_HOST" "catalogue-db"
  dbPort := getEnv env "DB_PORT" "3306"
  dbUser := getEnv env "DB_USER" "root"
  dbPass := getEnv env "DB_PASSWORD" "fake_password"
  dbName := getEnv env "DB_NAME" "socksdb"

/-- The local `port := getEnv("PORT", "8080")` of `main`. -/
def port (env : Env) : String := getEnv env "PORT" "8080"

/-! ## Go maps -/

/-- A Go `map[string]T`, as the list of its entries. -/
abbrev GoMap (α : Type) := List (String × α)

/-- Indexing `m[k]` with the comma-ok form: the value stored under `k`, if any. -/
def GoMap.get? {α : Type} (m : GoMap α) (k : String) : Option α :=
  List.lookup k m

/-- Assignment `m[k] = v`: the entry for `k` is replaced or created. -/
def GoMap.set {α : Type} (m : GoMap α) (k : String) (v : α) : GoMap α :=
  m.filter (fun e => e.1 != k) ++ [(k, v)]

/-- The keys of a map. -/
def GoMap.keys {α : Type} (m : GoMap α) : List String :=
  m.map Prod.fst

/-! ## JSON documents and the `Response` struct -/

/-- The JSON values a `Response` serialises to: a string, or an object whose
members are strings (a `map[string]string`). -/
inductive JsonValue where
  | str (s : String)
  | obj (members : List (String × String))
  deriving DecidableEq, Repr

/-- A JSON object: its members in the order they are emitted. -/
abbrev JsonObject := List (String × JsonValue)

/-- The member stored under `key`, `none` when the object has no such key. -/
def JsonObject.member? (doc : JsonObject) (key : String) : Option JsonValue :=
  List.lookup key doc

/-- The keys of a JSON object, in emission order. -/
def JsonObject.keys (doc : JsonObject) : List String :=
  doc.map Prod.fst

/-- Source `type Response struct`, lines 24-31. `Headers = none` is the nil map. -/
structure Response where
  Version : String := ""
  Timestamp : String := ""
  Hostname : String := ""
  Message : String := ""
  Headers : Option (GoMap String) := none
  DBStatus : String := ""
  deriving DecidableEq, Repr

/-- Lexicographic comparison of two strings, character by character; on valid
UTF-8 this is the byte-wise order Go sorts map keys by. -/
def charsLe : List Char → List Char → Bool
  | [], _ => true
  | _ :: _, [] => false
  | a :: as, b :: bs => a.toNat < b.toNat || (a.toNat == b.toNat && charsLe as bs)

/-- The order in which `encoding/json` emits two map entries. -/
def keyLe (a b : String × String) : Prop :=
  charsLe a.1.data b.1.data = true

instance : DecidableRel keyLe :=
  fun a b => inferInstanceAs (Decidable (charsLe a.1.data b.1.data = true))

/-- Go `encoding/json` on a `map[string]string`: members sorted by key. -/
def marshalMap (m : GoMap String) : JsonValue :=
  JsonValue.obj (List.insertionSort keyLe m)

/-- The `omitempty` test on a map field: a nil map and a map of length 0 are
both empty. -/
def isEmptyMap (m : Option (GoMap String)) : Bool :=
  match m with
  | none => true
  | some entries => entries.length == 0

/-- Go `json.Marshal` on a `Response`, following the struct tags: fields in
declaration order under their tag names, `headers` subject to `omitempty`. -/
def Response.marshal (r : Response) : JsonObject :=
  [("version", JsonValue.str r.Version),
   ("timestamp", JsonValue.str r.Timestamp),
   ("hostname", JsonValue.str r.Hostname),
   ("message", JsonValue.str r.Message)]
  ++ (if isEmptyMap r.Headers then [] else [("headers", marshalMap (r.Headers.getD []))])
  ++ [("db_status", JsonValue.str r.DBStatus)]

/-! ## The response writer -/

/-- Go `http.Header`. -/
abbrev Header := GoMap (List String)

/-- One `Write` to the response body: raw bytes, or a JSON document written by
a `json.Encoder`. -/
inductive Chunk where
  | raw (bytes : String)
  | json (doc : JsonObject)
  deriving DecidableEq, Repr

/-- A recording `http.ResponseWriter`. `committed` is `none` until the status
line is written, then the status code with the headers sent along with it. -/
structure ResponseWriter where
  header : Header
  committed : Option (Nat × Header)
  body : List Chunk
  deriving DecidableEq, Repr

/-- The writer a handler is given: nothing set, nothing written. -/
def ResponseWriter.fresh : ResponseWriter :=
  { header := [], committed := none, body := [] }

/-- Go `w.Header().Set(key, value)`. -/
def ResponseWriter.SetHeader (w : ResponseWriter) (key value : String) : ResponseWriter :=
  { w with header := w.header.set key [value] }

/-- Go `w.WriteHeader(code)`: commits the status line once; a later call is
ignored. -/
def ResponseWriter.WriteHeader (w : ResponseWriter) (code : Nat) : ResponseWriter :=
  match w.committed with
  | some _ => w
  | none => { w with committed := some (code, w.header) }

/-- Go `w.Write(..)`: an implicit `WriteHeader(200)` when no status line was
written yet, then the chunk is appended to the body. -/
def ResponseWriter.Write (w : ResponseWriter) (c : Chunk) : ResponseWriter :=
  let w1 := w.WriteHeader 200
  { w1 with body := w1.body ++ [c] }

/-- Go `json.NewEncoder(w).Encode(resp)`. -/
def jsonEncode (w : ResponseWriter) (resp : Response) : ResponseWriter :=
  w.Write (Chunk.json resp.marshal)

/-- The status code of the response, once committed. -/
def ResponseWriter.status? (w : ResponseWriter) : Option Nat :=
  w.committed.map Prod.fst

/-- The value of a header as sent with the status line (Go `Header.Get`). -/
def ResponseWriter.sentHeader? (w : ResponseWriter) (key : String) : Option String :=
  match w.committed with
  | some (_, h) => (h.get? key).bind List.head?
  | none => none

/-- The JSON envelope of a response whose body is exactly one JSON document. -/
def ResponseWriter.envelope? (w : ResponseWriter) : Option JsonObject :=
  match w.body with
  | [Chunk.json doc] => some doc
  | _ => none

/-! ## Requests, the operating system, the database -/

/-- The parts of `*http.Request` a handler can look at. -/
structure Request where
  Method : String
  Header : Header
  Body : String
  deriving DecidableEq, Repr

/-- What the handlers read from the system: the two results of `os.Hostname()`
and the value of `time.Now().Format(time.RFC3339)`. -/
structure OS where
  hostname : String × Option String
  now : String

/-- A call issued to `database/sql`. -/
inductive DBCall where
  | sqlOpen (driver dsn : String)
  | ping
  | queryRow (query : String)
  | close
  deriving DecidableEq, Repr

/-- The outcome of each database operation: the error of `sql.Open` and of
`db.Ping` (`none` for nil), and the result of `QueryRow(q).Scan(&count)`. -/
structure Database where
  sqlOpen : String → String → Option String
  ping : Option String
  scanCount : String → Except String Int

/-- Go `fmt` verb `%d` on an `int`. -/
def fmtD : Int → String
  | Int.ofNat n => Nat.repr n
  | Int.negSucc n => "-" ++ Nat.repr (n + 1)

/-! ## Handlers -/

/-- Source `respondWithError`, lines 108-118. -/
def respondWithError (g : Globals) (sys : OS) (w : ResponseWriter) (message : String) :
    ResponseWriter :=
  let resp : Response :=
    { Version := g.version
      Timestamp := sys.now
      Message := "Database connection failed"
      DBStatus := message }
  let w1 := w.SetHeader "Content-Type" "application/json"
  let w2 := w1.WriteHeader 500
  jsonEncode w2 resp

/-- One iteration of the loop of `handleRoot`, lines 50-52. -/
def collectStep (headers : GoMap String) (entry : String × List String) : GoMap String :=
  if hlen : entry.2.length > 0 then headers.set entry.1 (entry.2.get ⟨0, hlen⟩) else headers

/-- The loop of `handleRoot`, lines 48-53, over the entries of `r.Header`. -/
def collectHeaders (h : Header) : GoMap String :=
  h.foldl collectStep []

/-- Source `handleRoot`, lines 45-66. -/
def handleRoot (g : Globals) (sys : OS) (w : ResponseWriter) (r : Request) : ResponseWriter :=
  let hostname := sys.hostname.1
  let headers := collectHeaders r.Header
  let resp : Response :=
    { Version := g.version
      Timestamp := sys.now
      Hostname := hostname
      Message := "Hello from version " ++ g.version ++ "!"
      Headers := some headers
      DBStatus := "not checked" }
  let w1 := w.SetHeader "Content-Type" "application/json"
  jsonEncode w1 resp

/-- Source `handleHealth`, lines 68-71. -/
def handleHealth (w : ResponseWriter) (_r : Request) : ResponseWriter :=
  let w1 := w.WriteHeader 200
  w1.Write (Chunk.raw "OK")

/-- The connection string built at line 76. -/
def dsn (g : Globals) : String :=
  g.dbUser ++ ":" ++ g.dbPass ++ "@tcp(" ++ g.dbHost ++ ":" ++ g.dbPort ++ ")/" ++ g.dbName

/-- The part of `handleDBCheck` after `defer db.Close()`, lines 84-105: the
writer it leaves and the database calls it issued. -/
def dbCheckBody (g : Globals) (sys : OS) (db : Database) (w : ResponseWriter)
    (hostname : String) : ResponseWriter × List DBCall :=
  match db.ping with
  | some err =>
    (respondWithError g sys w ("Failed to ping database: " ++ err), [DBCall.ping])
  | none =>
    match db.scanCount "SELECT COUNT(*) FROM sock" with
    | Except.error err =>
      (respondWithError g sys w ("Failed to query database: " ++ err),
        [DBCall.ping, DBCall.queryRow "SELECT COUNT(*) FROM sock"])
    | Except.ok count =>
      let resp : Response :=
        { Version := g.version
          Timestamp := sys.now
          Hostname := hostname
          Message := "Successfully connected to MySQL database"
          DBStatus := "connected - " ++ fmtD count ++ " socks in database" }
      let w1 := w.SetHeader "Content-Type" "application/json"
      (jsonEncode w1 resp, [DBCall.ping, DBCall.queryRow "SELECT COUNT(*) FROM sock"])

/-- Source `handleDBCheck`, lines 73-106. The deferred `db.Close()` runs when
the function returns, after whatever the body did. -/
def handleDBCheck (g : Globals) (sys : OS) (db : Database) (w : ResponseWriter)
    (_r : Request) : ResponseWriter × List DBCall :=
  let hostname := sys.hostname.1
  match db.sqlOpen "mysql" (dsn g) with
  | some err =>
    (respondWithError g sys w ("Failed to connect to database: " ++ err),
      [DBCall.sqlOpen "mysql" (dsn g)])
  | none =>
    let out := dbCheckBody g sys db w hostname
    (out.1, [DBCall.sqlOpen "mysql" (dsn g)] ++ out.2 ++ [DBCall.close])

/-! ## Properties and sample inputs used by the statements -/

/-- The `headers` mapping of an envelope; an omitted key is the empty mapping. -/
def JsonObject.headers (doc : JsonObject) : GoMap String :=
  match doc.member? "headers" with
  | some (JsonValue.obj members) => members
  | _ => []

/-- The first value of the header `name`, when the request has the header and
its value list is not empty. -/
def firstValue? (h : Header) (name : String) : Option String :=
  match h.get? name with
  | some (v :: _) => some v
  | _ => none

/-- What it means for a setting `name` with default `dflt` to be loaded as
`loaded`: the environment's value when set and non-empty, else the default. -/
def Resolves (env : Env) (name dflt loaded : String) : Prop :=
  (∀ v, env name = some v → v ≠ "" → loaded = v) ∧
  (env name = none ∨ env name = some "" → loaded = dflt)

/-- C3 as stated: every header name of the request is a key of the envelope's
`headers` mapping, mapped to the first value of its list, and the mapping has
no other key. -/
def EchoesEveryHeader (r : Request) (doc : JsonObject) : Prop :=
  (∀ name values, (name, values) ∈ r.Header →
    ∃ v, values.head? = some v ∧ doc.headers.get? name = some v) ∧
  (∀ name, name ∉ r.Header.keys → doc.headers.get? name = none)

/-- What every failing run of `handleDBCheck` shows for the error `e`: status
500, the fixed message, and a non-empty `db_status` that contains `e`. -/
def FailureShape (w : ResponseWriter) (e : String) : Prop :=
  w.status? = some 500 ∧
  ∃ doc status, w.envelope? = some doc ∧
    doc.member? "message" = some (JsonValue.str "Database connection failed") ∧
    doc.member? "db_status" = some (JsonValue.str status) ∧
    status ≠ "" ∧ e.data <:+: status.data

/-- The ASCII character of a decimal digit `d < 10`: `0` is code 48. -/
def decimalDigit (d : Nat) : Char :=
  Char.ofNat (48 + d)

/-- Decimal notation of a natural number: its base-10 digits, most significant
first, with no leading zero; zero is written `0`. -/
def decimalNat (n : Nat) : String :=
  if n = 0 then "0" else String.mk ((Nat.digits 10 n).reverse.map decimalDigit)

/-- Decimal notation of an integer, the `decimal(N)` of the `db_status`
contract: a minus sign for a negative number, then the notation of its
absolute value. This is what the `%d` of line 101 has to produce. -/
def decimal (z : Int) : String :=
  (if z < 0 then "-" else "") ++ decimalNat z.natAbs

/-- The environment in which no variable is set. -/
def emptyEnv : Env := fun _ => none

/-- A sample system: host name `pod-1`, clock at the start of 2024. -/
def sampleOS : OS := { hostname := ("pod-1", none), now := "2024-01-01T00:00:00Z" }

/-- A sample request with three headers, one of them with an empty value list. -/
def sampleRequest : Request :=
  { Method := "GET"
    Header := [("X-B", ["1", "2"]), ("Accept", ["*/*"]), ("X-Empty", [])]
    Body := "" }

/-- A database on which every operation succeeds and `sock` has `n` rows. -/
def healthyDB (n : Int) : Database :=
  { sqlOpen := fun _ _ => none, ping := none, scanCount := fun _ => Except.ok n }

/-- A database whose server cannot be reached: `sql.Open` succeeds lazily and
the ping fails with `e`. -/
def unreachableDB (e : String) : Database :=
  { sqlOpen := fun _ _ => none, ping := some e, scanCount := fun _ => Except.error e }

/-- A database on which `sql.Open` itself fails with `e`, while a ping or a
query, were one issued, would succeed. -/
def openFailsDB (e : String) : Database :=
  { sqlOpen := fun _ _ => some e, ping := none, scanCount := fun _ => Except.ok 0 }

/-! ## Theorems -/

theorem getEnv_of_set (env : Env) (key fallback v : String)
    (h : env key = some v) (hv : v ≠ "") : getEnv env key fallback = v := by
  simp [getEnv, osGetenv, h, hv]

theorem getEnv_of_unset (env : Env) (key fallback : String)
    (h : env key = none ∨ env key = some "") : getEnv env key fallback = fallback := by
  rcases h with h | h <;> simp [getEnv, osGetenv, h]

theorem getEnv_resolves (env : Env) (key fallback : String) :
    Resolves env key fallback (getEnv env key fallback) :=
  ⟨fun v h hv => getEnv_of_set env key fallback v h hv,
   fun h => getEnv_of_unset env key fallback h⟩

/-- C1: for every environment and each of the seven settings, the loaded value is
the environment's value when the variable is set and non-empty, and the
documented default when it is unset or set to the empty string. -/
theorem settings_loaded (env : Env) :
    Resolves env "VERSION" "v1" (initGlobals env).version ∧
    Resolves env "DB_HOST" "catalogue-db" (initGlobals env).dbHost ∧
    Resolves env "DB_PORT" "3306" (initGlobals env).dbPort ∧
    Resolves env "DB_USER" "root" (initGlobals env).dbUser ∧
    Resolves env "DB_PASSWORD" "fake_password" (initGlobals env).dbPass ∧
    Resolves env "DB_NAME" "socksdb" (initGlobals env).dbName ∧
    Resolves env "PORT" "8080" (port env) :=
  ⟨getEnv_resolves env _ _, getEnv_resolves env _ _, getEnv_resolves env _ _,
   getEnv_resolves env _ _, getEnv_resolves env _ _, getEnv_resolves env _ _,
   getEnv_resolves env _ _⟩

/-- Witness for C1: with only `VERSION` set, to the empty string, every
setting resolves to its default. -/
theorem settings_loaded_witness :
    (initGlobals (fun k => if k = "VERSION" then some "" else none)).version = "v1" ∧
    port (fun k => if k = "VERSION" then some "" else none) = "8080" :=
  ⟨(settings_loaded (fun k => if k = "VERSION" then some "" else none)).1.2 (Or.inr rfl),
   (settings_loaded (fun k => if k = "VERSION" then some "" else none)).2.2.2.2.2.2.2
     (Or.inl rfl)⟩

/-! ### Writers left by the handlers -/

theorem respondWithError_fresh (g : Globals) (sys : OS) (message : String) :
    respondWithError g sys ResponseWriter.fresh message =
      { header := [("Content-Type", ["application/json"])]
        committed := some (500, [("Content-Type", ["application/json"])])
        body := [Chunk.json
          [("version", JsonValue.str g.version),
           ("timestamp", JsonValue.str sys.now),
           ("hostname", JsonValue.str ""),
           ("message", JsonValue.str "Database connection failed"),
           ("db_status", JsonValue.str message)]] } := by
  rfl

theorem handleRoot_fresh (g : Globals) (sys : OS) (r : Request) :
    handleRoot g sys ResponseWriter.fresh r =
      { header := [("Content-Type", ["application/json"])]
        committed := some (200, [("Content-Type", ["application/json"])])
        body := [Chunk.json
          ([("version", JsonValue.str g.version),
            ("timestamp", JsonValue.str sys.now),
            ("hostname", JsonValue.str sys.hostname.1),
            ("message", JsonValue.str ("Hello from version " ++ g.version ++ "!"))]
           ++ (if (collectHeaders r.Header).length == 0 then []
               else [("headers", marshalMap (collectHeaders r.Header))])
           ++ [("db_status", JsonValue.str "not checked")])] } := by
  rfl

/-- C2: whatever the request, `handleHealth` answers with status 200 and the
two-byte body `OK`, and the response is the same for every request. -/
theorem handleHealth_constant (r : Request) :
    (handleHealth ResponseWriter.fresh r).status? = some 200 ∧
    (handleHealth ResponseWriter.fresh r).body = [Chunk.raw "OK"] ∧
    "OK".utf8ByteSize = 2 ∧
    ∀ r2 : Request, handleHealth ResponseWriter.fresh r2 = handleHealth ResponseWriter.fresh r :=
  ⟨rfl, rfl, by decide, fun _ => rfl⟩

/-- C4: `handleRoot` answers 200 with `Content-Type: application/json`; the
envelope carries the configured version, the greeting built from it and the
fixed `db_status`; with `VERSION` unset or empty the greeting names `v1`. -/
theorem handleRoot_envelope (g : Globals) (sys : OS) (r : Request) (env : Env) :
    (handleRoot g sys ResponseWriter.fresh r).status? = some 200 ∧
    (handleRoot g sys ResponseWriter.fresh r).sentHeader? "Content-Type"
      = some "application/json" ∧
    (∃ doc, (handleRoot g sys ResponseWriter.fresh r).envelope? = some doc ∧
      doc.member? "version" = some (JsonValue.str g.version) ∧
      doc.member? "message"
        = some (JsonValue.str ("Hello from version " ++ g.version ++ "!")) ∧
      doc.member? "db_status" = some (JsonValue.str "not checked")) ∧
    (env "VERSION" = none ∨ env "VERSION" = some "" →
      ∃ doc, (handleRoot (initGlobals env) sys ResponseWriter.fresh r).envelope? = some doc ∧
        doc.member? "message" = some (JsonValue.str "Hello from version v1!")) := by
  have key : ∀ g : Globals, ∃ doc, (handleRoot g sys ResponseWriter.fresh r).envelope? = some doc ∧
      doc.member? "version" = some (JsonValue.str g.version) ∧
      doc.member? "message"
        = some (JsonValue.str ("Hello from version " ++ g.version ++ "!")) ∧
      doc.member? "db_status" = some (JsonValue.str "not checked") := by
    intro g
    rw [handleRoot_fresh]
    refine ⟨_, rfl, rfl, rfl, ?_⟩
    by_cases h : (collectHeaders r.Header).length == 0 <;>
      simp [h, JsonObject.member?, List.lookup]
  refine ⟨rfl, rfl, key g, ?_⟩
  intro h
  obtain ⟨doc, hdoc, -, hmsg, -⟩ := key (initGlobals env)
  refine ⟨doc, hdoc, ?_⟩
  have hv : (initGlobals env).version = "v1" := getEnv_of_unset env "VERSION" "v1" h
  rw [hmsg, hv]
  rfl

/-! ### `%d` renders decimal notation -/

theorem digitChar_eq_decimalDigit (d : Nat) (hd : d < 10) :
    Nat.digitChar d = decimalDigit d := by
  interval_cases d <;> rfl

theorem toDigitsCore_eq_digits (fuel : Nat) :
    ∀ (n : Nat) (ds : List Char), 0 < n → n < fuel →
      Nat.toDigitsCore 10 fuel n ds = (Nat.digits 10 n).reverse.map decimalDigit ++ ds := by
  induction fuel with
  | zero => intro n ds _ hlt; exact absurd hlt (Nat.not_lt_zero n)
  | succ fuel ih =>
    intro n ds hpos hlt
    have hdig : Nat.digits 10 n = (n % 10) :: Nat.digits 10 (n / 10) :=
      Nat.digits_def' (by decide) hpos
    have hchar : Nat.digitChar (n % 10) = decimalDigit (n % 10) :=
      digitChar_eq_decimalDigit (n % 10) (Nat.mod_lt n (by decide))
    by_cases hq : n / 10 = 0
    · simp [Nat.toDigitsCore, hq, hdig, hchar]
    · have hqpos : 0 < n / 10 := Nat.pos_of_ne_zero hq
      have hqlt : n / 10 < fuel := by
        have h1 : n / 10 < n := Nat.div_lt_self hpos (by decide)
        omega
      simp only [Nat.toDigitsCore, hq, if_false]
      rw [ih (n / 10) _ hqpos hqlt, hdig, hchar]
      simp

theorem repr_eq_decimalNat (n : Nat) : Nat.repr n = decimalNat n := by
  by_cases hn : n = 0
  · subst hn
    rfl
  · have hcore := toDigitsCore_eq_digits (n + 1) n [] (Nat.pos_of_ne_zero hn) (Nat.lt_succ_self n)
    simp only [Nat.repr, Nat.toDigits, hcore, decimalNat, hn, if_false, List.append_nil]
    rfl

theorem fmtD_eq_decimal (z : Int) : fmtD z = decimal z := by
  cases z with
  | ofNat n =>
    have hnn : ¬ (Int.ofNat n < 0) := not_lt.mpr (Int.ofNat_nonneg n)
    simp only [fmtD, decimal, hnn, if_false, Int.natAbs_ofNat, repr_eq_decimalNat]
    rfl
  | negSucc n =>
    have hneg : Int.negSucc n < 0 := Int.negSucc_lt_zero n
    simp only [fmtD, decimal, hneg, if_true, Int.natAbs_negSucc, repr_eq_decimalNat]

theorem decimal_three : decimal 3 = "3" := by
  have hd : Nat.digits 10 3 = [3] := by norm_num
  have hnn : ¬ ((3 : Int) < 0) := by decide
  simp only [decimal, hnn, if_false, decimalNat]
  rw [show (3 : Int).natAbs = 3 from rfl, hd]
  rfl

theorem decimal_samples :
    decimal 0 = "0" ∧ decimal 1207 = "1207" ∧ decimal (-42) = "-42" ∧
    fmtD 0 = "0" ∧ fmtD 1207 = "1207" ∧ fmtD (-42) = "-42" := by
  have h0 : fmtD 0 = "0" := by decide
  have h1 : fmtD 1207 = "1207" := by decide
  have h2 : fmtD (-42) = "-42" := by decide
  refine ⟨?_, ?_, ?_, h0, h1, h2⟩
  · rw [← fmtD_eq_decimal, h0]
  · rw [← fmtD_eq_decimal, h1]
  · rw [← fmtD_eq_decimal, h2]

/-- C5: when open, ping and the count query succeed and the query yields `n`,
`handleDBCheck` answers 200 and the envelope's `db_status` is `connected - `,
the decimal notation of `n`, then ` socks in database`; the message is the
success message and the version the configured one. -/
theorem handleDBCheck_success (g : Globals) (sys : OS) (db : Database) (r : Request) (n : Int)
    (hopen : db.sqlOpen "mysql" (dsn g) = none) (hping : db.ping = none)
    (hquery : db.scanCount "SELECT COUNT(*) FROM sock" = Except.ok n) :
    (handleDBCheck g sys db ResponseWriter.fresh r).1.status? = some 200 ∧
    ∃ doc, (handleDBCheck g sys db ResponseWriter.fresh r).1.envelope? = some doc ∧
      doc.member? "db_status"
        = some (JsonValue.str ("connected - " ++ decimal n ++ " socks in database")) ∧
      doc.member? "message" = some (JsonValue.str "Successfully connected to MySQL database") ∧
      doc.member? "version" = some (JsonValue.str g.version) := by
  simp only [handleDBCheck, dbCheckBody, hopen, hping, hquery, fmtD_eq_decimal]
  exact ⟨rfl, _, rfl, rfl, rfl, rfl⟩

/-- Witness for C5: a database with 3 socks, default configuration. -/
theorem handleDBCheck_success_witness :
    (handleDBCheck (initGlobals emptyEnv) sampleOS (healthyDB 3)
        ResponseWriter.fresh sampleRequest).1.status? = some 200 ∧
    ∃ doc, (handleDBCheck (initGlobals emptyEnv) sampleOS (healthyDB 3)
        ResponseWriter.fresh sampleRequest).1.envelope? = some doc ∧
      doc.member? "db_status" = some (JsonValue.str "connected - 3 socks in database") ∧
      doc.member? "message" = some (JsonValue.str "Successfully connected to MySQL database") ∧
      doc.member? "version" = some (JsonValue.str "v1") := by
  have h := handleDBCheck_success (initGlobals emptyEnv) sampleOS (healthyDB 3) sampleRequest 3
    rfl rfl rfl
  rw [decimal_three] at h
  exact h

/-! ### The error paths of `handleDBCheck` -/

theorem failureShape_respondWithError (g : Globals) (sys : OS) (stage e : String)
    (hstage : stage ≠ "") :
    FailureShape (respondWithError g sys ResponseWriter.fresh (stage ++ e)) e := by
  rw [respondWithError_fresh]
  refine ⟨rfl, _, stage ++ e, rfl, rfl, rfl, ?_, ?_⟩
  · intro h
    have hd : (stage ++ e).data = [] := by rw [h]
    rw [String.data_append, List.append_eq_nil] at hd
    exact hstage (String.ext hd.1)
  · rw [String.data_append]
    exact (List.suffix_append _ _).isInfix

theorem handleDBCheck_open_error (g : Globals) (sys : OS) (db : Database) (r : Request)
    (e : String) (hopen : db.sqlOpen "mysql" (dsn g) = some e) :
    handleDBCheck g sys db ResponseWriter.fresh r =
      (respondWithError g sys ResponseWriter.fresh ("Failed to connect to database: " ++ e),
        [DBCall.sqlOpen "mysql" (dsn g)]) := by
  simp only [handleDBCheck, hopen]

theorem handleDBCheck_ping_error (g : Globals) (sys : OS) (db : Database) (r : Request)
    (e : String) (hopen : db.sqlOpen "mysql" (dsn g) = none) (hping : db.ping = some e) :
    handleDBCheck g sys db ResponseWriter.fresh r =
      (respondWithError g sys ResponseWriter.fresh ("Failed to ping database: " ++ e),
        [DBCall.sqlOpen "mysql" (dsn g), DBCall.ping, DBCall.close]) := by
  simp only [handleDBCheck, dbCheckBody, hopen, hping]
  rfl

theorem handleDBCheck_query_error (g : Globals) (sys : OS) (db : Database) (r : Request)
    (e : String) (hopen : db.sqlOpen "mysql" (dsn g) = none) (hping : db.ping = none)
    (hquery : db.scanCount "SELECT COUNT(*) FROM sock" = Except.error e) :
    handleDBCheck g sys db ResponseWriter.fresh r =
      (respondWithError g sys ResponseWriter.fresh ("Failed to query database: " ++ e),
        [DBCall.sqlOpen "mysql" (dsn g), DBCall.ping,
          DBCall.queryRow "SELECT COUNT(*) FROM sock", DBCall.close]) := by
  simp only [handleDBCheck, dbCheckBody, hopen, hping, hquery]
  rfl

theorem handleDBCheck_ok (g : Globals) (sys : OS) (db : Database) (r : Request)
    (n : Int) (hopen : db.sqlOpen "mysql" (dsn g) = none) (hping : db.ping = none)
    (hquery : db.scanCount "SELECT COUNT(*) FROM sock" = Except.ok n) :
    handleDBCheck g sys db ResponseWriter.fresh r =
      ({ header := [("Content-Type", ["application/json"])]
         committed := some (200, [("Content-Type", ["application/json"])])
         body := [Chunk.json
           [("version", JsonValue.str g.version),
            ("timestamp", JsonValue.str sys.now),
            ("hostname", JsonValue.str sys.hostname.1),
            ("message", JsonValue.str "Successfully connected to MySQL database"),
            ("db_status",
              JsonValue.str ("connected - " ++ fmtD n ++ " socks in database"))]] },
        [DBCall.sqlOpen "mysql" (dsn g), DBCall.ping,
          DBCall.queryRow "SELECT COUNT(*) FROM sock", DBCall.close]) := by
  simp only [handleDBCheck, dbCheckBody, hopen, hping, hquery]
  rfl

/-- C6: whichever of open, ping or the count query fails first, with whatever
error description, `handleDBCheck` answers 500 with the message
`Database connection failed` and a non-empty `db_status` containing that
description; and it answers 500 only when one of the three fails. -/
theorem handleDBCheck_failure (g : Globals) (sys : OS) (db : Database) (r : Request) :
    (∀ e, db.sqlOpen "mysql" (dsn g) = some e →
      FailureShape (handleDBCheck g sys db ResponseWriter.fresh r).1 e) ∧
    (db.sqlOpen "mysql" (dsn g) = none → ∀ e, db.ping = some e →
      FailureShape (handleDBCheck g sys db ResponseWriter.fresh r).1 e) ∧
    (db.sqlOpen "mysql" (dsn g) = none → db.ping = none →
      ∀ e, db.scanCount "SELECT COUNT(*) FROM sock" = Except.error e →
      FailureShape (handleDBCheck g sys db ResponseWriter.fresh r).1 e) ∧
    ((handleDBCheck g sys db ResponseWriter.fresh r).1.status? = some 500 →
      (∃ e, db.sqlOpen "mysql" (dsn g) = some e) ∨ (∃ e, db.ping = some e) ∨
      (∃ e, db.scanCount "SELECT COUNT(*) FROM sock" = Except.error e)) := by
  refine ⟨?_, ?_, ?_, ?_⟩
  · intro e hopen
    rw [handleDBCheck_open_error g sys db r e hopen]
    exact failureShape_respondWithError g sys _ e (by decide)
  · intro hopen e hping
    rw [handleDBCheck_ping_error g sys db r e hopen hping]
    exact failureShape_respondWithError g sys _ e (by decide)
  · intro hopen hping e hquery
    rw [handleDBCheck_query_error g sys db r e hopen hping hquery]
    exact failureShape_respondWithError g sys _ e (by decide)
  · intro h500
    cases hopen : db.sqlOpen "mysql" (dsn g) with
    | some e => exact Or.inl ⟨e, rfl⟩
    | none =>
      cases hping : db.ping with
      | some e => exact Or.inr (Or.inl ⟨e, rfl⟩)
      | none =>
        cases hquery : db.scanCount "SELECT COUNT(*) FROM sock" with
        | error e => exact Or.inr (Or.inr ⟨e, rfl⟩)
        | ok n =>
          rw [handleDBCheck_ok g sys db r n hopen hping hquery] at h500
          simp [ResponseWriter.status?] at h500

/-- Witness for C6: an unreachable database whose error has an empty description. -/
theorem handleDBCheck_failure_witness :
    FailureShape (handleDBCheck (initGlobals emptyEnv) sampleOS (unreachableDB "")
      ResponseWriter.fresh sampleRequest).1 "" :=
  (handleDBCheck_failure (initGlobals emptyEnv) sampleOS (unreachableDB "") sampleRequest).2.1
    rfl "" rfl

/-- C7 as stated fails: in the JSON object `respondWithError` emits, the key
`hostname` is present (the field has no `omitempty`), so it is not the case
that both `hostname` and `headers` are omitted. -/
theorem respondWithError_hostname_not_omitted :
    ¬ (∀ doc, (respondWithError (initGlobals emptyEnv) sampleOS ResponseWriter.fresh
          "Failed to ping database: timeout").envelope? = some doc →
        "hostname" ∉ doc.keys ∧ "headers" ∉ doc.keys) := by
  intro h
  exact (h _ rfl).1 (by decide)

/-- C7, amended: the envelope `respondWithError` emits has the configured
version and the current formatted time as timestamp; the `headers` key is
omitted, and `hostname` is emitted with the empty string as its value. -/
theorem respondWithError_envelope (g : Globals) (sys : OS) (message : String) :
    ∃ doc, (respondWithError g sys ResponseWriter.fresh message).envelope? = some doc ∧
      doc.member? "version" = some (JsonValue.str g.version) ∧
      doc.member? "timestamp" = some (JsonValue.str sys.now) ∧
      doc.member? "hostname" = some (JsonValue.str "") ∧
      "headers" ∉ doc.keys ∧
      doc.keys = ["version", "timestamp", "hostname", "message", "db_status"] := by
  rw [respondWithError_fresh]
  exact ⟨_, rfl, rfl, rfl, rfl, by simp [JsonObject.keys], rfl⟩

/-- C8: every run of `handleDBCheck` commits one status and writes one JSON
envelope; when `sql.Open` succeeded the calls are the open, then pings and
queries only, then a single `Close` as the last call, and when it failed no
connection exists and nothing but the open was issued. -/
theorem handleDBCheck_one_response_and_close (g : Globals) (sys : OS) (db : Database)
    (r : Request) :
    (∃ code, (handleDBCheck g sys db ResponseWriter.fresh r).1.status? = some code) ∧
    (∃ doc, (handleDBCheck g sys db ResponseWriter.fresh r).1.body = [Chunk.json doc]) ∧
    (db.sqlOpen "mysql" (dsn g) = none →
      ∃ calls, (handleDBCheck g sys db ResponseWriter.fresh r).2
          = DBCall.sqlOpen "mysql" (dsn g) :: calls ++ [DBCall.close] ∧
        (∀ c ∈ calls, c = DBCall.ping ∨ ∃ q, c = DBCall.queryRow q) ∧
        (handleDBCheck g sys db ResponseWriter.fresh r).2.count DBCall.close = 1) ∧
    ((∃ e, db.sqlOpen "mysql" (dsn g) = some e) →
      (handleDBCheck g sys db ResponseWriter.fresh r).2 = [DBCall.sqlOpen "mysql" (dsn g)]) := by
  cases hopen : db.sqlOpen "mysql" (dsn g) with
  | some e =>
    rw [handleDBCheck_open_error g sys db r e hopen, respondWithError_fresh]
    exact ⟨⟨500, rfl⟩, ⟨_, rfl⟩, fun h => absurd h (by simp), fun _ => rfl⟩
  | none =>
    cases hping : db.ping with
    | some e =>
      rw [handleDBCheck_ping_error g sys db r e hopen hping, respondWithError_fresh]
      refine ⟨⟨500, rfl⟩, ⟨_, rfl⟩, fun _ => ⟨[DBCall.ping], rfl, ?_, ?_⟩, ?_⟩
      · intro c hc
        simp only [List.mem_singleton] at hc
        exact Or.inl hc
      · simp [List.count_cons]
      · rintro ⟨e2, he2⟩
        exact absurd he2 (by simp)
    | none =>
      cases hquery : db.scanCount "SELECT COUNT(*) FROM sock" with
      | error e =>
        rw [handleDBCheck_query_error g sys db r e hopen hping hquery, respondWithError_fresh]
        refine ⟨⟨500, rfl⟩, ⟨_, rfl⟩,
          fun _ => ⟨[DBCall.ping, DBCall.queryRow "SELECT COUNT(*) FROM sock"], rfl, ?_, ?_⟩, ?_⟩
        · intro c hc
          simp only [List.mem_cons, List.mem_singleton, List.not_mem_nil, or_false] at hc
          rcases hc with rfl | rfl
          · exact Or.inl rfl
          · exact Or.inr ⟨_, rfl⟩
        · simp [List.count_cons]
        · rintro ⟨e2, he2⟩
          exact absurd he2 (by simp)
      | ok n =>
        rw [handleDBCheck_ok g sys db r n hopen hping hquery]
        refine ⟨⟨200, rfl⟩, ⟨_, rfl⟩,
          fun _ => ⟨[DBCall.ping, DBCall.queryRow "SELECT COUNT(*) FROM sock"], rfl, ?_, ?_⟩, ?_⟩
        · intro c hc
          simp only [List.mem_cons, List.mem_singleton, List.not_mem_nil, or_false] at hc
          rcases hc with rfl | rfl
          · exact Or.inl rfl
          · exact Or.inr ⟨_, rfl⟩
        · simp [List.count_cons]
        · rintro ⟨e2, he2⟩
          exact absurd he2 (by simp)

/-- C10: `handleDBCheck` issues open, ping and query in that order and stops at
the first failure; the `db_status` of the error envelope is the prefix of the
failing stage followed by that stage's error description. -/
theorem handleDBCheck_stages (g : Globals) (sys : OS) (db : Database) (r : Request) :
    (∀ e, db.sqlOpen "mysql" (dsn g) = some e →
      (handleDBCheck g sys db ResponseWriter.fresh r).2 = [DBCall.sqlOpen "mysql" (dsn g)] ∧
      ∃ doc, (handleDBCheck g sys db ResponseWriter.fresh r).1.envelope? = some doc ∧
        doc.member? "db_status"
          = some (JsonValue.str ("Failed to connect to database: " ++ e))) ∧
    (db.sqlOpen "mysql" (dsn g) = none → ∀ e, db.ping = some e →
      (handleDBCheck g sys db ResponseWriter.fresh r).2
        = [DBCall.sqlOpen "mysql" (dsn g), DBCall.ping, DBCall.close] ∧
      ∃ doc, (handleDBCheck g sys db ResponseWriter.fresh r).1.envelope? = some doc ∧
        doc.member? "db_status" = some (JsonValue.str ("Failed to ping database: " ++ e))) ∧
    (db.sqlOpen "mysql" (dsn g) = none → db.ping = none →
      ∀ e, db.scanCount "SELECT COUNT(*) FROM sock" = Except.error e →
      (handleDBCheck g sys db ResponseWriter.fresh r).2
        = [DBCall.sqlOpen "mysql" (dsn g), DBCall.ping,
            DBCall.queryRow "SELECT COUNT(*) FROM sock", DBCall.close] ∧
      ∃ doc, (handleDBCheck g sys db ResponseWriter.fresh r).1.envelope? = some doc ∧
        doc.member? "db_status" = some (JsonValue.str ("Failed to query database: " ++ e))) ∧
    (db.sqlOpen "mysql" (dsn g) = none → db.ping = none →
      ∀ n, db.scanCount "SELECT COUNT(*) FROM sock" = Except.ok n →
      (handleDBCheck g sys db ResponseWriter.fresh r).2
        = [DBCall.sqlOpen "mysql" (dsn g), DBCall.ping,
            DBCall.queryRow "SELECT COUNT(*) FROM sock", DBCall.close]) := by
  refine ⟨?_, ?_, ?_, ?_⟩
  · intro e hopen
    rw [handleDBCheck_open_error g sys db r e hopen, respondWithError_fresh]
    exact ⟨rfl, _, rfl, rfl⟩
  · intro hopen e hping
    rw [handleDBCheck_ping_error g sys db r e hopen hping, respondWithError_fresh]
    exact ⟨rfl, _, rfl, rfl⟩
  · intro hopen hping e hquery
    rw [handleDBCheck_query_error g sys db r e hopen hping hquery, respondWithError_fresh]
    exact ⟨rfl, _, rfl, rfl⟩
  · intro hopen hping n hquery
    rw [handleDBCheck_ok g sys db r n hopen hping hquery]

/-- Witness for C10: with a failing open only the open is issued, and the
`db_status` carries the open prefix. -/
theorem handleDBCheck_stages_witness :
    (handleDBCheck (initGlobals emptyEnv) sampleOS (openFailsDB "invalid DSN")
        ResponseWriter.fresh sampleRequest).2
      = [DBCall.sqlOpen "mysql" "root:fake_password@tcp(catalogue-db:3306)/socksdb"] ∧
    ∃ doc, (handleDBCheck (initGlobals emptyEnv) sampleOS (openFailsDB "invalid DSN")
        ResponseWriter.fresh sampleRequest).1.envelope? = some doc ∧
      doc.member? "db_status"
        = some (JsonValue.str "Failed to connect to database: invalid DSN") :=
  (handleDBCheck_stages (initGlobals emptyEnv) sampleOS (openFailsDB "invalid DSN")
    sampleRequest).1 "invalid DSN" rfl

/-! ### The header echo of `handleRoot` -/

theorem collectHeaders_eq_foldl (h : Header) : collectHeaders h = h.foldl collectStep [] := rfl

theorem lookup_filter_self {α : Type} (m : List (String × α)) (k : String) :
    List.lookup k (m.filter (fun e => e.1 != k)) = none := by
  induction m with
  | nil => rfl
  | cons p t ih =>
    obtain ⟨a, b⟩ := p
    by_cases hak : a = k
    · subst hak
      simpa [List.filter_cons] using ih
    · have hka : (k == a) = false := by simpa using fun hh : k = a => hak hh.symm
      have hne : (a != k) = true := by simpa using hak
      simp only [List.filter_cons, hne, if_true, List.lookup_cons, hka]
      exact ih

theorem lookup_filter_other {α : Type} (m : List (String × α)) (k name : String)
    (hk : name ≠ k) :
    List.lookup name (m.filter (fun e => e.1 != k)) = List.lookup name m := by
  induction m with
  | nil => rfl
  | cons p t ih =>
    obtain ⟨a, b⟩ := p
    by_cases hak : a = k
    · subst hak
      have hna : (name == a) = false := by simpa using hk
      have hne : (a != a) = false := by simp
      simp only [List.filter_cons, hne, List.lookup_cons, hna]
      exact ih
    · have hne : (a != k) = true := by simpa using hak
      simp only [List.filter_cons, hne, if_true, List.lookup_cons]
      rw [ih]

theorem get?_set {α : Type} (m : GoMap α) (k name : String) (v : α) :
    (m.set k v).get? name = if name = k then some v else m.get? name := by
  unfold GoMap.set GoMap.get?
  rw [List.lookup_append]
  by_cases hk : name = k
  · subst hk
    rw [lookup_filter_self, if_pos rfl]
    simp
  · have hnk : (name == k) = false := by simpa using hk
    rw [lookup_filter_other m k name hk, if_neg hk]
    simp only [List.lookup_cons, hnk, List.lookup_nil]
    cases List.lookup name m <;> rfl

theorem get?_collectStep (acc : GoMap String) (k name : String) (vs : List String) :
    (collectStep acc (k, vs)).get? name
      = if name = k then (vs.head?).or (acc.get? name) else acc.get? name := by
  cases vs with
  | nil => simp [collectStep]
  | cons v t =>
    simp only [collectStep, List.length_cons, gt_iff_lt, Nat.zero_lt_succ, dite_true]
    rw [get?_set]
    by_cases hk : name = k <;> simp [hk]

theorem get?_foldl_collectStep (h : Header) :
    ∀ (acc : GoMap String) (name : String), h.keys.Nodup →
      (h.foldl collectStep acc).get? name = (firstValue? h name).or (acc.get? name) := by
  induction h with
  | nil =>
    intro acc name _
    simp [firstValue?, GoMap.get?]
  | cons p t ih =>
    intro acc name hnd
    obtain ⟨k, vs⟩ := p
    have hnd2 : (k ∉ GoMap.keys t) ∧ (GoMap.keys t).Nodup := by
      simpa [GoMap.keys] using hnd
    rw [List.foldl_cons, ih _ name hnd2.2, get?_collectStep]
    by_cases hk : name = k
    · subst hk
      have hnone : firstValue? t name = none := by
        have : GoMap.get? t name = none := by
          unfold GoMap.get?
          rw [List.lookup_eq_none_iff]
          intro q hq
          have hne : name ≠ q.1 := by
            intro hh
            exact hnd2.1 (by rw [hh]; exact List.mem_map_of_mem Prod.fst hq)
          simpa [bne_iff_ne] using hne
        simp [firstValue?, this]
      have hhead : firstValue? ((name, vs) :: t) name = vs.head? := by
        cases vs <;> simp [firstValue?, GoMap.get?]
      simp [hnone, hhead]
    · have hnk : (name == k) = false := by simpa using hk
      have htail : firstValue? ((k, vs) :: t) name = firstValue? t name := by
        simp [firstValue?, GoMap.get?, List.lookup_cons, hnk]
      simp [hk, htail]

theorem get?_collectHeaders (h : Header) (name : String) (hnd : h.keys.Nodup) :
    (collectHeaders h).get? name = firstValue? h name := by
  rw [collectHeaders_eq_foldl, get?_foldl_collectStep h [] name hnd]
  simp [GoMap.get?]

theorem keys_set_nodup {α : Type} (m : GoMap α) (k : String) (v : α)
    (hm : m.keys.Nodup) : (m.set k v).keys.Nodup := by
  unfold GoMap.set GoMap.keys at *
  rw [List.map_append, List.nodup_append]
  refine ⟨(List.filter_sublist m).map Prod.fst |>.nodup hm, List.nodup_singleton _, ?_⟩
  intro x hx hx2
  rw [List.map_cons, List.map_nil, List.mem_singleton] at hx2
  obtain ⟨q, hq, hqx⟩ := List.mem_map.mp hx
  have hne := (List.mem_filter.mp hq).2
  rw [hqx, hx2] at hne
  simp at hne

theorem keys_foldl_collectStep_nodup (h : Header) :
    ∀ acc : GoMap String, acc.keys.Nodup → (h.foldl collectStep acc).keys.Nodup := by
  induction h with
  | nil => intro acc hacc; exact hacc
  | cons p t ih =>
    intro acc hacc
    rw [List.foldl_cons]
    apply ih
    unfold collectStep
    split
    · exact keys_set_nodup _ _ _ hacc
    · exact hacc

theorem keys_collectHeaders_nodup (h : Header) : (collectHeaders h).keys.Nodup := by
  rw [collectHeaders_eq_foldl]
  exact keys_foldl_collectStep_nodup h [] List.nodup_nil

theorem lookup_eq_some_iff_mem {α : Type} (l : List (String × α)) (k : String) (v : α)
    (hl : (l.map Prod.fst).Nodup) : List.lookup k l = some v ↔ (k, v) ∈ l := by
  induction l with
  | nil => simp
  | cons p t ih =>
    obtain ⟨a, b⟩ := p
    rw [List.map_cons, List.nodup_cons] at hl
    by_cases hka : k = a
    · subst hka
      rw [List.lookup_cons_self]
      constructor
      · intro hb
        have hbv : b = v := Option.some.inj hb
        rw [hbv]
        exact List.mem_cons_self _ _
      · intro hmem
        rcases List.mem_cons.mp hmem with heq | htail
        · have hbv : v = b := (Prod.mk.inj heq).2
          rw [hbv]
        · exact absurd (List.mem_map_of_mem Prod.fst htail) hl.1
    · have hbeq : (k == a) = false := by simpa using hka
      simp only [List.lookup_cons, hbeq]
      rw [ih hl.2]
      constructor
      · exact fun hmem => List.mem_cons_of_mem _ hmem
      · intro hmem
        rcases List.mem_cons.mp hmem with heq | htail
        · exact absurd (Prod.mk.inj heq).1 hka
        · exact htail

theorem lookup_perm {α : Type} (l1 l2 : List (String × α)) (k : String)
    (hp : l1.Perm l2) (hl : (l1.map Prod.fst).Nodup) :
    List.lookup k l1 = List.lookup k l2 := by
  have hl2 : (l2.map Prod.fst).Nodup := (hp.map Prod.fst).nodup_iff.mp hl
  apply Option.ext
  intro v
  rw [Option.mem_def, Option.mem_def, lookup_eq_some_iff_mem l1 k v hl,
    lookup_eq_some_iff_mem l2 k v hl2]
  exact hp.mem_iff

theorem headers_handleRoot (g : Globals) (sys : OS) (r : Request) :
    ∃ doc, (handleRoot g sys ResponseWriter.fresh r).envelope? = some doc ∧
      ∀ name, doc.headers.get? name = (collectHeaders r.Header).get? name := by
  rw [handleRoot_fresh]
  refine ⟨_, rfl, ?_⟩
  intro name
  by_cases h : (collectHeaders r.Header).length == 0
  · have hnil : collectHeaders r.Header = [] := List.length_eq_zero.mp (by simpa using h)
    simp [hnil, JsonObject.headers, JsonObject.member?, List.lookup]
  · have hdoc : JsonObject.headers
        ([("version", JsonValue.str g.version),
          ("timestamp", JsonValue.str sys.now),
          ("hostname", JsonValue.str sys.hostname.1),
          ("message", JsonValue.str ("Hello from version " ++ g.version ++ "!"))]
          ++ (if (collectHeaders r.Header).length == 0 then []
              else [("headers", marshalMap (collectHeaders r.Header))])
          ++ [("db_status", JsonValue.str "not checked")])
        = List.insertionSort keyLe (collectHeaders r.Header) := by
      simp [h, JsonObject.headers, JsonObject.member?, List.lookup, marshalMap]
    rw [hdoc]
    exact lookup_perm _ _ name (List.perm_insertionSort keyLe _)
      ((List.perm_insertionSort keyLe _).map Prod.fst |>.nodup_iff.mpr
        (keys_collectHeaders_nodup r.Header))

/-- C3 as stated fails: a header whose value list is empty is present in the
request but is skipped by the loop, so it is not a key of the mapping. -/
theorem handleRoot_skips_empty_header :
    ∃ doc, (handleRoot (initGlobals emptyEnv) sampleOS ResponseWriter.fresh
        sampleRequest).envelope? = some doc ∧
      ("X-Empty", []) ∈ sampleRequest.Header ∧
      doc.headers.get? "X-Empty" = none ∧
      ¬ EchoesEveryHeader sampleRequest doc := by
  refine ⟨_, rfl, by decide, by decide, ?_⟩
  intro h
  obtain ⟨v, hv, -⟩ := h.1 "X-Empty" [] (by decide)
  simp at hv

/-- C3, amended: the `headers` mapping of the envelope maps every header name
whose value list is non-empty to the first value of that list, and has no
other key. -/
theorem handleRoot_headers (g : Globals) (sys : OS) (r : Request)
    (hnd : r.Header.keys.Nodup) :
    ∃ doc, (handleRoot g sys ResponseWriter.fresh r).envelope? = some doc ∧
      (∀ name v vs, (name, v :: vs) ∈ r.Header → doc.headers.get? name = some v) ∧
      (∀ name, (∀ v vs, (name, v :: vs) ∉ r.Header) → doc.headers.get? name = none) := by
  obtain ⟨doc, hdoc, hget⟩ := headers_handleRoot g sys r
  have hfirst : ∀ name, doc.headers.get? name = firstValue? r.Header name := by
    intro name
    rw [hget name, get?_collectHeaders r.Header name hnd]
  refine ⟨doc, hdoc, ?_, ?_⟩
  · intro name v vs hmem
    have hlk : GoMap.get? r.Header name = some (v :: vs) :=
      (lookup_eq_some_iff_mem r.Header name (v :: vs) hnd).mpr hmem
    rw [hfirst, firstValue?, hlk]
  · intro name hno
    rw [hfirst, firstValue?]
    cases hlk : GoMap.get? r.Header name with
    | none => rfl
    | some values =>
      cases values with
      | nil => rfl
      | cons v vs =>
        exact absurd ((lookup_eq_some_iff_mem r.Header name (v :: vs) hnd).mp hlk) (hno v vs)

/-- Witness for C3 (amended): the sample request, whose `X-B` header has two
values and whose `X-Empty` header has none. -/
theorem handleRoot_headers_witness :
    sampleRequest.Header.keys.Nodup ∧
    ∃ doc, (handleRoot (initGlobals emptyEnv) sampleOS ResponseWriter.fresh
        sampleRequest).envelope? = some doc ∧
      (∀ name v vs, (name, v :: vs) ∈ sampleRequest.Header →
        doc.headers.get? name = some v) ∧
      (∀ name, (∀ v vs, (name, v :: vs) ∉ sampleRequest.Header) →
        doc.headers.get? name = none) :=
  ⟨by decide, handleRoot_headers (initGlobals emptyEnv) sampleOS sampleRequest (by decide)⟩

/-- C9: the JSON object of a `Response` has the keys `version`, `timestamp`,
`hostname`, `message`, then `headers` exactly when the mapping is non-empty,
then `db_status`; the envelope of `handleRoot` for a request without headers
(an empty, non-nil mapping) has no `headers` key. -/
theorem marshal_keys (resp : Response) (g : Globals) (sys : OS) (method body : String) :
    resp.marshal.keys
      = ["version", "timestamp", "hostname", "message"]
        ++ (match resp.Headers with
            | some (_ :: _) => ["headers"]
            | _ => [])
        ++ ["db_status"] ∧
    ("headers" ∈ resp.marshal.keys ↔ ∃ m, resp.Headers = some m ∧ m ≠ []) ∧
    ∃ doc, (handleRoot g sys ResponseWriter.fresh
        { Method := method, Header := [], Body := body }).envelope? = some doc ∧
      doc.keys = ["version", "timestamp", "hostname", "message", "db_status"] ∧
      "headers" ∉ doc.keys := by
  refine ⟨?_, ?_, ?_⟩
  · obtain ⟨ver, ts, host, msg, hdrs, dbs⟩ := resp
    cases hdrs with
    | none => rfl
    | some m =>
      cases m with
      | nil => rfl
      | cons e t => rfl
  · obtain ⟨ver, ts, host, msg, hdrs, dbs⟩ := resp
    cases hdrs with
    | none => simp [Response.marshal, JsonObject.keys, isEmptyMap]
    | some m =>
      cases m with
      | nil => simp [Response.marshal, JsonObject.keys, isEmptyMap]
      | cons e t => simp [Response.marshal, JsonObject.keys, isEmptyMap]
  · rw [handleRoot_fresh]
    exact ⟨_, rfl, rfl, by simp [JsonObject.keys, collectHeaders]⟩

end VersionApp
